import Mathlib

set_option maxHeartbeats 1000000

namespace TextJsonApi

/-- JSON values as exchanged by the service: the request body, the
`format` schema description, and the model output are all such values. -/
inductive Json where
  | null : Json
  | bool (b : Bool) : Json
  | num (n : Int) : Json
  | str (s : String) : Json
  | arr (xs : List Json) : Json
  | obj (fields : List (String × Json)) : Json

/-- Compiled Zod validator trees as produced by `jsonSchemaToZod`:
primitives and arrays are always wrapped in `.nullable()`, objects are not. -/
inductive Validator where
  | vstring : Validator
  | vnumber : Validator
  | vboolean : Validator
  | varray (items : Validator) : Validator
  | vobject (fields : List (String × Validator)) : Validator

/-- Host-language errors thrown by the translation: a TypeError from a
property read on undefined or null, or the explicit unsupported-type Error. -/
inductive JsError where
  | typeError (msg : String) : JsError
  | unsupported (msg : String) : JsError
deriving DecidableEq

theorem Json.one_le_sizeOf (j : Json) : 1 ≤ sizeOf j := by
  cases j <;> simp

theorem sizeOf_lookup_json {l : List (String × Json)} {k : String} {v : Json}
    (h : l.lookup k = some v) : sizeOf v < sizeOf l := by
  induction l with
  | nil => simp [List.lookup] at h
  | cons hd tl ih =>
    rw [List.lookup] at h
    split at h
    · cases h
      cases hd with
      | mk a b => simp; omega
    · have := ih h
      cases hd with
      | mk a b => simp; omega

theorem sizeOf_lookup_validator {l : List (String × Validator)} {k : String} {v : Validator}
    (h : l.lookup k = some v) : sizeOf v < sizeOf l := by
  induction l with
  | nil => simp [List.lookup] at h
  | cons hd tl ih =>
    rw [List.lookup] at h
    split at h
    · cases h
      cases hd with
      | mk a b => simp; omega
    · have := ih h
      cases hd with
      | mk a b => simp; omega

/-- `schema.hasOwnProperty('type')`, the only ownness test the source
performs: a JSON object owns exactly its keys; a JSON array owns only its
indices and `length` (never `type`); boxed primitives own no data keys. -/
def hasTypeProperty : Json → Bool
  | .obj fields => fields.any (fun p => p.1 == "type")
  | _ => false

/-- `Array.isArray(schema)`. -/
def isJsArray : Json → Bool
  | .arr _ => true
  | _ => false

/-- `typeof schema` for JSON values (never `undefined` here; note the
host-language quirks: `typeof null` and `typeof []` are both "object"). -/
def jsTypeof : Json → String
  | .null => "object"
  | .bool _ => "boolean"
  | .num _ => "number"
  | .str _ => "string"
  | .arr _ => "object"
  | .obj _ => "object"

/-- Property read `schema[key]`: `none` models `undefined`. -/
def getProp : Json → String → Option Json
  | .obj fields, k => fields.lookup k
  | _, _ => none

theorem sizeOf_getProp (j : Json) (k : String) : sizeOf (getProp j k) < 1 + sizeOf j := by
  cases j with
  | obj fields =>
    rw [getProp]
    cases h : fields.lookup k with
    | none => simp
    | some v => have := sizeOf_lookup_json h; simp; omega
  | null => simp [getProp]
  | bool b => simp [getProp]
  | num n => simp [getProp]
  | str s => simp [getProp]
  | arr xs => simp [getProp]

/-- Stringification used by the template literal in the thrown Error message. -/
def jsToString : Json → String
  | .null => "null"
  | .bool b => if b then "true" else "false"
  | .num n => toString n
  | .str s => s
  | .arr xs => String.intercalate "," (xs.attach.map (fun x => jsToString x.1))
  | .obj _ => "[object Object]"
decreasing_by
  have := List.sizeOf_lt_of_mem x.2
  simp at this ⊢
  omega

/-- `determineSchemaType` from src/index.ts: reading `schema.hasOwnProperty`
on `null` throws a TypeError; otherwise, with no `type` key, an array is
classified "array" and anything else by `typeof`; with a `type` key the
(arbitrary) value of that key is returned. -/
def determineSchemaType (schema : Json) : Except JsError Json :=
  match schema with
  | .null => .error (.typeError "Cannot read properties of null (reading hasOwnProperty)")
  | _ =>
    if hasTypeProperty schema then
      .ok ((getProp schema "type").getD .null)
    else if isJsArray schema then
      .ok (.str "array")
    else
      .ok (.str (jsTypeof schema))

mutual

/-- `jsonSchemaToZod` from src/index.ts, on `Option Json` so that `none`
models the `undefined` reaching the recursive call via `schema.items`;
`determineSchemaType(undefined)` then throws a TypeError. The `switch`
uses strict equality, so only string-valued type tags match a case. -/
def jsonSchemaToZod : Option Json → Except JsError Validator
  | none => .error (.typeError "Cannot read properties of undefined (reading hasOwnProperty)")
  | some schema => do
    let t ← determineSchemaType schema
    match t with
    | .str s =>
      if s = "string" then return .vstring
      else if s = "number" then return .vnumber
      else if s = "boolean" then return .vboolean
      else if s = "array" then do
        let items ← jsonSchemaToZod (getProp schema "items")
        return .varray items
      else if s = "object" then
        match schema with
        | .obj fields => do
          let shape ← translateFields fields
          return .vobject shape
        | _ =>
          -- `for key in schema` enumerates no keys on a primitive; an array
          -- cannot reach this branch (it was classified "array" above).
          return .vobject []
      else .error (.unsupported ("Unsupported schema type: " ++ s))
    | other => .error (.unsupported ("Unsupported schema type: " ++ jsToString other))
termination_by o => sizeOf o
decreasing_by
  all_goals first
    | (have hsz := sizeOf_getProp schema "items"; simp at hsz ⊢; omega)
    | (simp <;> omega)

/-- The `for key in schema` loop of the object branch: every key of the node
(in order) is translated; the first thrown error propagates. -/
def translateFields : List (String × Json) → Except JsError (List (String × Validator))
  | [] => .ok []
  | (k, v) :: rest => do
    let tv ← jsonSchemaToZod (some v)
    let trest ← translateFields rest
    return (k, tv) :: trest
termination_by l => sizeOf l
decreasing_by
  all_goals simp <;> omega

end

mutual

/-- Zod runtime parsing of the compiled validators (`.parse` in
src/index.ts): `none` is a thrown ZodError, `some r` the parsed result.
`.nullable()` primitives and arrays accept `null`; `z.object` in its
default strip mode checks exactly the declared keys (a missing key is
`undefined`, which no sub-validator here accepts) and rebuilds the result
from the declared keys only. -/
def validate : Validator → Json → Option Json
  | .vstring, j =>
    match j with
    | .null => some .null
    | .str s => some (.str s)
    | _ => none
  | .vnumber, j =>
    match j with
    | .null => some .null
    | .num n => some (.num n)
    | _ => none
  | .vboolean, j =>
    match j with
    | .null => some .null
    | .bool b => some (.bool b)
    | _ => none
  | .varray t, j =>
    match j with
    | .null => some .null
    | .arr xs => (validateList t xs).map Json.arr
    | _ => none
  | .vobject fields, j =>
    match j with
    | .obj m => (validateFields fields m).map Json.obj
    | _ => none
termination_by v j => sizeOf v + sizeOf j
decreasing_by
  all_goals simp <;> omega

/-- Element-wise parsing of `z.array(t)` on the array elements. -/
def validateList : Validator → List Json → Option (List Json)
  | _, [] => some []
  | t, x :: rest =>
    match validate t x with
    | none => none
    | some r => (validateList t rest).map (fun l => r :: l)
termination_by t l => sizeOf t + sizeOf l
decreasing_by
  all_goals simp <;> omega

/-- Field-wise parsing of `z.object(shape)`: each declared key is looked up
in the candidate object and parsed by its sub-validator. -/
def validateFields : List (String × Validator) → List (String × Json) →
    Option (List (String × Json))
  | [], _ => some []
  | (k, f) :: rest, m =>
    match h : m.lookup k with
    | none => none
    | some v =>
      match validate f v with
      | none => none
      | some r => (validateFields rest m).map (fun l => (k, r) :: l)
termination_by l m => sizeOf l + sizeOf m
decreasing_by
  all_goals first
    | (have hsz := sizeOf_lookup_json h; simp <;> omega)
    | (simp <;> omega)

end

/-- The three primitive markers of the schema notation. -/
inductive PrimKind where
  | pstring : PrimKind
  | pnumber : PrimKind
  | pboolean : PrimKind
deriving DecidableEq

/-- SchemaNode trees of the spec data model: a primitive marker
`{type: "string"|"number"|"boolean"}`, an array marker
`{type: "array", items: t}`, or an implicit object mapping field names to
sub-nodes. -/
inductive STree where
  | prim (k : PrimKind) : STree
  | arrNode (items : STree) : STree
  | objNode (fields : List (String × STree)) : STree

/-- The string of the primitive marker. -/
def PrimKind.tag : PrimKind → String
  | .pstring => "string"
  | .pnumber => "number"
  | .pboolean => "boolean"

mutual

/-- The JSON value a SchemaNode tree denotes, as the caller would write it
in the request body. -/
def toJson : STree → Json
  | .prim k => .obj [("type", .str k.tag)]
  | .arrNode t => .obj [("type", .str "array"), ("items", toJson t)]
  | .objNode fs => .obj (toJsonFields fs)

/-- Field-wise image of `toJson`. -/
def toJsonFields : List (String × STree) → List (String × Json)
  | [] => []
  | (k, t) :: rest => (k, toJson t) :: toJsonFields rest

end

mutual

/-- The validator tree the translation is expected to compile an STree to. -/
def compile : STree → Validator
  | .prim .pstring => .vstring
  | .prim .pnumber => .vnumber
  | .prim .pboolean => .vboolean
  | .arrNode t => .varray (compile t)
  | .objNode fs => .vobject (compileFields fs)

/-- Field-wise image of `compile`. -/
def compileFields : List (String × STree) → List (String × Validator)
  | [] => []
  | (k, t) :: rest => (k, compile t) :: compileFields rest

end

mutual

/-- Well-formedness of an STree as a schema description: no field of an
implicit object may be named "type", or the node would not be an implicit
object at all (it would carry a type key). -/
def wfTree : STree → Bool
  | .prim _ => true
  | .arrNode t => wfTree t
  | .objNode fs => wfTreeFields fs

/-- Field-wise well-formedness. -/
def wfTreeFields : List (String × STree) → Bool
  | [] => true
  | (k, t) :: rest => (!(k == "type")) && wfTree t && wfTreeFields rest

end

mutual

/-- The acceptance predicate in the words of the spec: at a primitive leaf,
a value of that primitive type or null; at an array node, null or an array
of values each valid for the item node; at an object node, a non-null
object with every declared key present and valid (extra keys are allowed,
null is not an object). -/
def acceptSpec : STree → Json → Bool
  | .prim .pstring, j =>
    match j with
    | .null => true
    | .str _ => true
    | _ => false
  | .prim .pnumber, j =>
    match j with
    | .null => true
    | .num _ => true
    | _ => false
  | .prim .pboolean, j =>
    match j with
    | .null => true
    | .bool _ => true
    | _ => false
  | .arrNode t, j =>
    match j with
    | .null => true
    | .arr xs => acceptSpecList t xs
    | _ => false
  | .objNode fs, j =>
    match j with
    | .obj m => acceptSpecFields fs m
    | _ => false
termination_by t j => sizeOf t + sizeOf j
decreasing_by
  all_goals simp <;> omega

/-- Every element of the array is valid for the item node. -/
def acceptSpecList : STree → List Json → Bool
  | _, [] => true
  | t, x :: rest => acceptSpec t x && acceptSpecList t rest
termination_by t l => sizeOf t + sizeOf l
decreasing_by
  all_goals simp <;> omega

/-- Every declared key is present and its value is valid for its sub-node. -/
def acceptSpecFields : List (String × STree) → List (String × Json) → Bool
  | [], _ => true
  | (k, t) :: rest, m =>
    (match h : m.lookup k with
     | none => false
     | some v => acceptSpec t v) && acceptSpecFields rest m
termination_by l m => sizeOf l + sizeOf m
decreasing_by
  all_goals first
    | (have hsz := sizeOf_lookup_json h; simp <;> omega)
    | (simp <;> omega)

end

/-- `RetryablePromise.retry(retries, executor)` from src/index.ts over an
oracle `op` giving each invocation outcome (`op n` is the n-th run of the
executor, counting from 0). Returns the settled outcome together with the
total number of executor invocations: run once; on success resolve; on
failure, when retries remain, recurse with one fewer, otherwise reject with
that final error unchanged. -/
def retry {E T : Type} (retries : Nat) (op : Nat → Except E T) (k : Nat) :
    Except E T × Nat :=
  match op k with
  | .ok v => (.ok v, 1)
  | .error e =>
    match retries with
    | 0 => (.error e, 1)
    | r + 1 =>
      let p := retry r op (k + 1)
      (p.1, p.2 + 1)

/-- Request-handler failures: the Zod `BadRequest` from the body shape
check, an error thrown by `jsonSchemaToZod`, and the retryable per-attempt
failures (generation call, JSON.parse, validation). -/
inductive HError where
  | badRequest : HError
  | schemaError (e : JsError) : HError
  | generationFailure (msg : String) : HError
  | jsonParseFailure : HError
  | validationFailure : HError
deriving DecidableEq

/-- `inputSchema.parse(body)`: the body must be an object whose "input" is
a string and whose "format" is an object (`z.object({}).passthrough()`
keeps all of its fields but rejects null, arrays and primitives). -/
def inputParse (body : Json) : Option (String × Json) :=
  match body with
  | .obj m =>
    match m.lookup "input", m.lookup "format" with
    | some (.str s), some (.obj fm) => some (s, .obj fm)
    | _, _ => none
  | _ => none

/-- One run of the executor passed to `RetryablePromise.retry` in the POST
handler: call the generation collaborator (`gen`, a black box indexed by
invocation number), parse its text as JSON (`parseJsonText`, the host
`JSON.parse` as a black box), then validate against the compiled schema. -/
def attemptOp (v : Validator) (gen : Nat → Except String String)
    (parseJsonText : String → Option Json) (k : Nat) : Except HError Json :=
  match gen k with
  | .error m => .error (.generationFailure m)
  | .ok text =>
    match parseJsonText text with
    | none => .error .jsonParseFailure
    | some j =>
      match validate v j with
      | none => .error .validationFailure
      | some r => .ok r

/-- The POST / handler of src/index.ts: parse the body shape, translate the
format once outside the retry loop, then run the retry loop with budget 3.
The second component counts invocations of the generation collaborator. -/
def handler (body : Json) (gen : Nat → Except String String)
    (parseJsonText : String → Option Json) : Except HError Json × Nat :=
  match inputParse body with
  | none => (.error .badRequest, 0)
  | some (_, format) =>
    match jsonSchemaToZod (some format) with
    | .error e => (.error (.schemaError e), 0)
    | .ok v => retry 3 (attemptOp v gen parseJsonText) 0

theorem lookup_any_key {l : List (String × Json)} {k : String} {v : Json}
    (h : l.lookup k = some v) : l.any (fun p => p.1 == k) = true := by
  induction l with
  | nil => simp [List.lookup] at h
  | cons hd tl ih =>
    obtain ⟨a, b⟩ := hd
    rw [List.lookup] at h
    cases hab : (k == a) with
    | false => rw [hab] at h; simp [ih h]
    | true =>
      have hk := eq_of_beq hab
      subst hk
      simp

theorem toJsonFields_no_type {fs : List (String × STree)} (h : wfTreeFields fs = true) :
    (toJsonFields fs).any (fun p => p.1 == "type") = false := by
  induction fs with
  | nil => rfl
  | cons hd tl ih =>
    obtain ⟨k, t⟩ := hd
    rw [wfTreeFields] at h
    simp only [Bool.and_eq_true, Bool.not_eq_true'] at h
    rw [toJsonFields, List.any_cons]
    simp [h.1.1, ih h.2]

theorem validateFields_cons_none {k : String} {f : Validator}
    {rest : List (String × Validator)} {m : List (String × Json)}
    (h : m.lookup k = none) : validateFields ((k, f) :: rest) m = none := by
  simp only [validateFields]
  split <;> simp_all

theorem validateFields_cons_some {k : String} {f : Validator}
    {rest : List (String × Validator)} {m : List (String × Json)} {v : Json}
    (h : m.lookup k = some v) :
    validateFields ((k, f) :: rest) m =
      match validate f v with
      | none => none
      | some r => (validateFields rest m).map (fun l => (k, r) :: l) := by
  simp only [validateFields]
  split <;> simp_all

theorem acceptSpecFields_cons_none {k : String} {t : STree}
    {rest : List (String × STree)} {m : List (String × Json)}
    (h : m.lookup k = none) : acceptSpecFields ((k, t) :: rest) m = false := by
  simp only [acceptSpecFields]
  split <;> simp_all

theorem acceptSpecFields_cons_some {k : String} {t : STree}
    {rest : List (String × STree)} {m : List (String × Json)} {v : Json}
    (h : m.lookup k = some v) :
    acceptSpecFields ((k, t) :: rest) m = (acceptSpec t v && acceptSpecFields rest m) := by
  simp only [acceptSpecFields]
  split <;> simp_all

mutual

theorem translate_toJson (t : STree) (h : wfTree t = true) :
    jsonSchemaToZod (some (toJson t)) = .ok (compile t) := by
  match t with
  | .prim k =>
    cases k <;>
      simp [toJson, compile, PrimKind.tag, jsonSchemaToZod, determineSchemaType,
        hasTypeProperty, getProp, List.lookup, bind, Except.bind, pure, Except.pure]
  | .arrNode t' =>
    rw [wfTree] at h
    have ih := translate_toJson t' h
    simp [toJson, compile, jsonSchemaToZod, determineSchemaType, hasTypeProperty,
      getProp, List.lookup, bind, Except.bind, pure, Except.pure, ih]
  | .objNode fs =>
    rw [wfTree] at h
    have ih := translate_toJsonFields fs h
    have hno := toJsonFields_no_type h
    simp [toJson, compile, jsonSchemaToZod, determineSchemaType, hasTypeProperty,
      isJsArray, jsTypeof, getProp, bind, Except.bind, pure, Except.pure, hno, ih]

theorem translate_toJsonFields (fs : List (String × STree)) (h : wfTreeFields fs = true) :
    translateFields (toJsonFields fs) = .ok (compileFields fs) := by
  match fs with
  | [] => rw [toJsonFields, compileFields, translateFields]
  | (k, t) :: rest =>
    rw [wfTreeFields] at h
    simp only [Bool.and_eq_true] at h
    have ih1 := translate_toJson t h.1.2
    have ih2 := translate_toJsonFields rest h.2
    simp [toJsonFields, compileFields, translateFields, ih1, ih2,
      bind, Except.bind, pure, Except.pure]

end

mutual

theorem validate_compile (t : STree) (j : Json) :
    (validate (compile t) j).isSome = acceptSpec t j := by
  match t with
  | .prim k =>
    cases k <;> cases j <;> simp [compile, validate, acceptSpec]
  | .arrNode t' =>
    cases j with
    | arr xs =>
      have ih := validateList_compile t' xs
      simp [compile, validate, acceptSpec, ih]
    | null => simp [compile, validate, acceptSpec]
    | bool b => simp [compile, validate, acceptSpec]
    | num n => simp [compile, validate, acceptSpec]
    | str s => simp [compile, validate, acceptSpec]
    | obj m => simp [compile, validate, acceptSpec]
  | .objNode fs =>
    cases j with
    | obj m =>
      have ih := validateFields_compile fs m
      simp [compile, validate, acceptSpec, ih]
    | null => simp [compile, validate, acceptSpec]
    | bool b => simp [compile, validate, acceptSpec]
    | num n => simp [compile, validate, acceptSpec]
    | str s => simp [compile, validate, acceptSpec]
    | arr xs => simp [compile, validate, acceptSpec]
termination_by sizeOf t + sizeOf j
decreasing_by
  all_goals simp <;> omega

theorem validateList_compile (t : STree) (xs : List Json) :
    (validateList (compile t) xs).isSome = acceptSpecList t xs := by
  match xs with
  | [] => simp [validateList, acceptSpecList]
  | x :: rest =>
    have ih1 := validate_compile t x
    have ih2 := validateList_compile t rest
    cases hv : validate (compile t) x with
    | none => simp [validateList, acceptSpecList, hv, ← ih1]
    | some r => simp [validateList, acceptSpecList, hv, ← ih1, ih2]
termination_by sizeOf t + sizeOf xs
decreasing_by
  all_goals simp <;> omega

theorem validateFields_compile (fs : List (String × STree)) (m : List (String × Json)) :
    (validateFields (compileFields fs) m).isSome = acceptSpecFields fs m := by
  match fs with
  | [] => simp [compileFields, validateFields, acceptSpecFields]
  | (k, t) :: rest =>
    have ih2 := validateFields_compile rest m
    cases hl : m.lookup k with
    | none =>
      rw [compileFields, validateFields_cons_none hl, acceptSpecFields_cons_none hl]
      rfl
    | some v =>
      have ih1 := validate_compile t v
      rw [compileFields, validateFields_cons_some hl, acceptSpecFields_cons_some hl]
      cases hv : validate (compile t) v with
      | none => simp [hv, ← ih1]
      | some r => simp [hv, ← ih1, ih2]
termination_by sizeOf fs + sizeOf m
decreasing_by
  all_goals first
    | (have hsz := sizeOf_lookup_json hl; simp <;> omega)
    | (simp <;> omega)

end

theorem lookup_eq_none_of_no_key {extras : List (String × Json)} {k : String}
    (h : ∀ p ∈ extras, p.1 ≠ k) : extras.lookup k = none := by
  induction extras with
  | nil => rfl
  | cons hd tl ih =>
    obtain ⟨a, b⟩ := hd
    rw [List.lookup]
    have ha : (k == a) = false := by
      have hne := h (a, b) (List.mem_cons_self _ _)
      exact beq_eq_false_iff_ne.mpr (fun hk => hne hk.symm)
    rw [ha]
    exact ih (fun p hp => h p (List.mem_cons_of_mem _ hp))

theorem lookup_append_of_none {m extras : List (String × Json)} {k : String}
    (h : extras.lookup k = none) : (m ++ extras).lookup k = m.lookup k := by
  induction m with
  | nil => simpa using h
  | cons hd tl ih =>
    obtain ⟨a, b⟩ := hd
    rw [List.cons_append, List.lookup, List.lookup]
    cases hab : (k == a) with
    | false => simpa using ih
    | true => rfl

theorem validateFields_append {fields : List (String × Validator)}
    {m extras : List (String × Json)}
    (h : ∀ p ∈ fields, extras.lookup p.1 = none) :
    validateFields fields (m ++ extras) = validateFields fields m := by
  induction fields with
  | nil => simp [validateFields]
  | cons hd rest ih =>
    obtain ⟨k, f⟩ := hd
    have hk : extras.lookup k = none := h (k, f) (List.mem_cons_self _ _)
    have happ := @lookup_append_of_none m extras k hk
    cases hl : m.lookup k with
    | none =>
      rw [validateFields_cons_none (happ.trans hl), validateFields_cons_none hl]
    | some v =>
      rw [validateFields_cons_some (happ.trans hl), validateFields_cons_some hl]
      rw [ih (fun p hp => h p (List.mem_cons_of_mem _ hp))]

theorem validateFields_keys {fields : List (String × Validator)} :
    ∀ {m rs}, validateFields fields m = some rs → rs.map Prod.fst = fields.map Prod.fst := by
  induction fields with
  | nil =>
    intro m rs h
    rw [validateFields] at h
    cases h
    rfl
  | cons hd rest ih =>
    obtain ⟨k, f⟩ := hd
    intro m rs h
    cases hl : m.lookup k with
    | none => rw [validateFields_cons_none hl] at h; cases h
    | some v =>
      rw [validateFields_cons_some hl] at h
      cases hv : validate f v with
      | none => rw [hv] at h; cases h
      | some r =>
        rw [hv] at h
        obtain ⟨l, hlk, hrs⟩ := Option.map_eq_some'.mp h
        subst hrs
        simp [ih hlk]

/-- C1: for every SchemaNode tree built from the four primitive kinds
(string, number, boolean, array) plus nested implicit objects,
`jsonSchemaToZod` succeeds and the produced validator accepts exactly the
values described by `acceptSpec`: at a primitive leaf a value of that
primitive type or null, at an array node null or an array of valid items,
at an object node a non-null object with every declared key present and
valid. -/
theorem claim_c1 (t : STree) (h : wfTree t = true) :
    ∃ v, jsonSchemaToZod (some (toJson t)) = Except.ok v ∧
      ∀ j, (validate v j).isSome = acceptSpec t j :=
  ⟨compile t, translate_toJson t h, fun j => validate_compile t j⟩

/-- C1 witness: the claim instantiated at the schema tree
`{name: {type: "string"}, tags: {type: "array", items: {type: "number"}}}`. -/
theorem claim_c1_witness :
    wfTree (STree.objNode [("name", .prim .pstring), ("tags", .arrNode (.prim .pnumber))]) = true ∧
    ∃ v, jsonSchemaToZod (some (toJson
        (STree.objNode [("name", .prim .pstring), ("tags", .arrNode (.prim .pnumber))]))) =
        Except.ok v ∧
      ∀ j, (validate v j).isSome =
        acceptSpec (STree.objNode [("name", .prim .pstring), ("tags", .arrNode (.prim .pnumber))]) j :=
  ⟨rfl, claim_c1 _ rfl⟩

/-- C2: an operation that fails on every invocation is attempted exactly 4
times by `retry 3`, and the final rejection is the error of the fourth
attempt itself, unwrapped and unaggregated. -/
theorem claim_c2 {E T : Type} (op : Nat → Except E T)
    (h : ∀ n, ∃ e, op n = Except.error e) :
    (retry 3 op 0).2 = 4 ∧ (retry 3 op 0).1 = op 3 := by
  obtain ⟨e0, h0⟩ := h 0
  obtain ⟨e1, h1⟩ := h 1
  obtain ⟨e2, h2⟩ := h 2
  obtain ⟨e3, h3⟩ := h 3
  simp [retry, h0, h1, h2, h3]

/-- C2 witness: the always-failing operation whose n-th invocation rejects
with the number n. -/
theorem claim_c2_witness :
    (∀ n, ∃ e, (fun n => (Except.error n : Except Nat Unit)) n = Except.error e) ∧
    ((retry 3 (fun n => (Except.error n : Except Nat Unit)) 0).2 = 4 ∧
      (retry 3 (fun n => (Except.error n : Except Nat Unit)) 0).1 =
        (fun n => (Except.error n : Except Nat Unit)) 3) :=
  ⟨fun n => ⟨n, rfl⟩, claim_c2 _ (fun n => ⟨n, rfl⟩)⟩

/-- C3 counterexample: the string node "hello" has no `type` key and is not
a sequence value, yet `determineSchemaType` classifies it as "string", not
as an object — the untyped fallback is the host `typeof`, not "object". -/
theorem claim_c3_counterexample :
    hasTypeProperty (Json.str "hello") = false ∧
    isJsArray (Json.str "hello") = false ∧
    determineSchemaType (Json.str "hello") = .ok (.str "string") ∧
    Json.str "string" ≠ Json.str "object" := by
  refine ⟨rfl, rfl, rfl, ?_⟩
  simp

/-- C3 (amended): a non-null schema node lacking a `type` key is classified
as "array" when it is a sequence value and otherwise by the host-language
`typeof`, which yields "object" exactly on mappings — so strings, numbers
and booleans are classified as their own primitive kind, not as objects
(and the null node throws a TypeError before any classification). -/
theorem claim_c3_amended (j : Json) (hn : j ≠ Json.null) (h : hasTypeProperty j = false) :
    determineSchemaType j = .ok (.str (if isJsArray j then "array" else jsTypeof j)) ∧
    (∀ fs, jsTypeof (Json.obj fs) = "object") := by
  refine ⟨?_, fun fs => rfl⟩
  cases j with
  | null => exact absurd rfl hn
  | obj fields => simp [determineSchemaType, h, isJsArray]
  | bool b => simp [determineSchemaType, hasTypeProperty, isJsArray]
  | num n => simp [determineSchemaType, hasTypeProperty, isJsArray]
  | str s => simp [determineSchemaType, hasTypeProperty, isJsArray]
  | arr xs => simp [determineSchemaType, hasTypeProperty, isJsArray]

/-- C3 witness: the amended claim instantiated at the implicit object
`{a: null}`, which is classified "object". -/
theorem claim_c3_witness :
    (Json.obj [("a", Json.null)] ≠ Json.null) ∧
    hasTypeProperty (Json.obj [("a", Json.null)]) = false ∧
    (determineSchemaType (Json.obj [("a", Json.null)]) =
        .ok (.str (if isJsArray (Json.obj [("a", Json.null)]) then "array"
          else jsTypeof (Json.obj [("a", Json.null)]))) ∧
      (∀ fs, jsTypeof (Json.obj fs) = "object")) :=
  ⟨fun h => Json.noConfusion h, rfl,
    claim_c3_amended _ (fun h => Json.noConfusion h) rfl⟩

/-- C4: a request whose body fails the shape check, or whose format fails
translation with the unsupported-type error, fails with zero invocations of
the generation collaborator — the retry loop is never entered. -/
theorem claim_c4 (body : Json) (gen : Nat → Except String String)
    (parseJsonText : String → Option Json)
    (h : inputParse body = none ∨
      ∃ s fm msg, inputParse body = some (s, fm) ∧
        jsonSchemaToZod (some fm) = .error (.unsupported msg)) :
    (handler body gen parseJsonText).2 = 0 ∧
    ∃ e, (handler body gen parseJsonText).1 = Except.error e := by
  rcases h with h | ⟨s, fm, msg, hin, htr⟩
  · simp [handler, h]
  · simp [handler, hin, htr]

/-- C4 witness: the empty-object body (missing `input` and `format`) is
rejected with zero generation attempts. -/
theorem claim_c4_witness :
    inputParse (Json.obj []) = none ∧
    ((handler (Json.obj []) (fun _ => .error "boom") (fun _ => none)).2 = 0 ∧
      ∃ e, (handler (Json.obj []) (fun _ => .error "boom") (fun _ => none)).1 =
        Except.error e) :=
  ⟨rfl, claim_c4 _ _ _ (Or.inl rfl)⟩

/-- C5: an operation that fails on its first two invocations and succeeds
on its third is attempted exactly 3 times by `retry 3`, which resolves with
the third invocation's value. -/
theorem claim_c5 {E T : Type} (op : Nat → Except E T) (e0 e1 : E) (v : T)
    (h0 : op 0 = .error e0) (h1 : op 1 = .error e1) (h2 : op 2 = .ok v) :
    (retry 3 op 0).2 = 3 ∧ (retry 3 op 0).1 = Except.ok v := by
  simp [retry, h0, h1, h2]

/-- C5 witness: the operation failing on invocations 0 and 1 and returning
42 on invocation 2. -/
theorem claim_c5_witness :
    ((fun n => if n < 2 then (Except.error n : Except Nat Nat) else .ok 42) 0 =
        .error 0) ∧
    ((fun n => if n < 2 then (Except.error n : Except Nat Nat) else .ok 42) 1 =
        .error 1) ∧
    ((fun n => if n < 2 then (Except.error n : Except Nat Nat) else .ok 42) 2 = .ok 42) ∧
    ((retry 3 (fun n => if n < 2 then (Except.error n : Except Nat Nat) else .ok 42) 0).2 = 3 ∧
      (retry 3 (fun n => if n < 2 then (Except.error n : Except Nat Nat) else .ok 42) 0).1 =
        Except.ok 42) :=
  ⟨rfl, rfl, rfl, claim_c5 _ 0 1 42 rfl rfl rfl⟩

/-- C6: a schema node whose `type` value is outside the five recognized
strings makes `jsonSchemaToZod` fail with the unsupported-type error whose
message names the offending type value. -/
theorem claim_c6 (fields : List (String × Json)) (t : Json)
    (hty : fields.lookup "type" = some t)
    (hs : ∀ s, t = Json.str s →
      s ≠ "string" ∧ s ≠ "number" ∧ s ≠ "boolean" ∧ s ≠ "array" ∧ s ≠ "object") :
    jsonSchemaToZod (some (.obj fields)) =
      .error (.unsupported ("Unsupported schema type: " ++ jsToString t)) := by
  have hany := lookup_any_key hty
  simp only [jsonSchemaToZod, determineSchemaType, hasTypeProperty, hany, if_true,
    getProp, hty, Option.getD_some, bind, Except.bind]
  cases t with
  | str s =>
    obtain ⟨h1, h2, h3, h4, h5⟩ := hs s rfl
    simp [h1, h2, h3, h4, h5, jsToString]
  | null => simp [jsToString]
  | bool b => simp [jsToString]
  | num n => simp [jsToString]
  | arr xs => simp [jsToString]
  | obj m => simp [jsToString]

/-- C6 witness: `translate({"type": "unknown"})` fails with the message
`Unsupported schema type: unknown`. -/
theorem claim_c6_witness :
    ([(("type" : String), Json.str "unknown")].lookup "type" = some (Json.str "unknown")) ∧
    jsonSchemaToZod (some (.obj [("type", .str "unknown")])) =
      .error (.unsupported ("Unsupported schema type: " ++ jsToString (.str "unknown"))) :=
  ⟨rfl, claim_c6 _ _ rfl (fun s hs => by
    simp at hs
    subst hs
    refine ⟨?_, ?_, ?_, ?_, ?_⟩ <;> decide)⟩

/-- C7: for every budget and every operation, the retry loop performs at
most `maxAttempts + 1` invocations. -/
theorem claim_c7 {E T : Type} (retries k : Nat) (op : Nat → Except E T) :
    (retry retries op k).2 ≤ retries + 1 := by
  induction retries generalizing k with
  | zero => rw [retry]; cases op k <;> simp
  | succ r ih =>
    rw [retry]
    cases op k with
    | ok v => simp
    | error e => simpa using Nat.succ_le_succ (ih (k + 1))

/-- C7 witness: the bound instantiated at budget 2 and a constant
operation. -/
theorem claim_c7_witness :
    (retry 2 (fun _ => (Except.ok () : Except Unit Unit)) 0).2 ≤ 3 :=
  claim_c7 2 0 (fun _ => (Except.ok () : Except Unit Unit))

/-- C8: `jsonSchemaToZod` is total on every finite SchemaNode tree of the
recognized kinds — it terminates (it is a Lean function) and returns a
validator without throwing. -/
theorem claim_c8 (t : STree) (h : wfTree t = true) :
    ∃ v, jsonSchemaToZod (some (toJson t)) = Except.ok v :=
  ⟨compile t, translate_toJson t h⟩

/-- C8 witness: the claim instantiated at the schema tree
`{type: "array", items: {flag: {type: "boolean"}}}`. -/
theorem claim_c8_witness :
    wfTree (STree.arrNode (.objNode [("flag", .prim .pboolean)])) = true ∧
    ∃ v, jsonSchemaToZod (some (toJson (STree.arrNode (.objNode [("flag", .prim .pboolean)])))) =
      Except.ok v :=
  ⟨rfl, claim_c8 _ rfl⟩

/-- C9: an object validator accepts a candidate with extra undeclared keys
exactly as it accepts the candidate without them, and any successfully
parsed result is an object carrying exactly the declared keys — the
undeclared keys are silently stripped, not rejected. -/
theorem claim_c9 (fields : List (String × Validator)) (m extras : List (String × Json))
    (hdisj : ∀ p ∈ extras, ∀ q ∈ fields, p.1 ≠ q.1) :
    validate (.vobject fields) (.obj (m ++ extras)) = validate (.vobject fields) (.obj m) ∧
    ∀ r, validate (.vobject fields) (.obj m) = some r →
      ∃ rs, r = Json.obj rs ∧ rs.map Prod.fst = fields.map Prod.fst := by
  constructor
  · simp only [validate]
    rw [validateFields_append
      (fun q hq => lookup_eq_none_of_no_key (fun p hp => hdisj p hp q hq))]
  · intro r hr
    simp only [validate] at hr
    obtain ⟨rs, hrs, hr2⟩ := Option.map_eq_some'.mp hr
    exact ⟨rs, hr2.symm, validateFields_keys hrs⟩

/-- C9 witness: the validator `{a: string}` on the candidate
`{a: "x", b: 1}` — the extra key `b` does not change acceptance and is
absent from the parsed result. -/
theorem claim_c9_witness :
    (∀ p ∈ [(("b" : String), Json.num 1)], ∀ q ∈ [(("a" : String), Validator.vstring)],
      p.1 ≠ q.1) ∧
    (validate (.vobject [("a", Validator.vstring)])
        (.obj ([("a", Json.str "x")] ++ [("b", Json.num 1)])) =
      validate (.vobject [("a", Validator.vstring)]) (.obj [("a", Json.str "x")]) ∧
    ∀ r, validate (.vobject [("a", Validator.vstring)]) (.obj [("a", Json.str "x")]) = some r →
      ∃ rs, r = Json.obj rs ∧
        rs.map Prod.fst = [(("a" : String), Validator.vstring)].map Prod.fst) :=
  ⟨by decide, claim_c9 _ _ _ (by decide)⟩

/-- C10: every array node with no `items` field — every object node with
`type: "array"` and no `items` key, and every raw sequence value — makes
`jsonSchemaToZod` throw the host-language TypeError of a property read on
undefined, not the guarded unsupported-type error. -/
theorem claim_c10 :
    (∀ fields : List (String × Json), fields.lookup "type" = some (Json.str "array") →
      fields.lookup "items" = none →
      jsonSchemaToZod (some (.obj fields)) =
        .error (.typeError "Cannot read properties of undefined (reading hasOwnProperty)")) ∧
    ∀ xs, jsonSchemaToZod (some (.arr xs)) =
      .error (.typeError "Cannot read properties of undefined (reading hasOwnProperty)") := by
  constructor
  · intro fields hty hit
    have hany := lookup_any_key hty
    simp [jsonSchemaToZod, determineSchemaType, hasTypeProperty, hany, getProp, hty, hit,
      bind, Except.bind, pure, Except.pure]
  · intro xs
    simp [jsonSchemaToZod, determineSchemaType, hasTypeProperty, getProp, isJsArray,
      bind, Except.bind, pure, Except.pure]

/-- C10 witness: the typed node `{type: "array", foo: 1}` (no `items`) and
the raw empty sequence value as schema nodes. -/
theorem claim_c10_witness :
    ([(("type" : String), Json.str "array"), ("foo", Json.num 1)].lookup "type" =
        some (Json.str "array")) ∧
    ([(("type" : String), Json.str "array"), ("foo", Json.num 1)].lookup "items" = none) ∧
    jsonSchemaToZod (some (.obj [("type", .str "array"), ("foo", .num 1)])) =
      .error (.typeError "Cannot read properties of undefined (reading hasOwnProperty)") ∧
    jsonSchemaToZod (some (.arr [])) =
      .error (.typeError "Cannot read properties of undefined (reading hasOwnProperty)") :=
  ⟨rfl, rfl, claim_c10.1 _ rfl rfl, claim_c10.2 []⟩

end TextJsonApi
